import Mathlib

/-!
Shallow embedding of the pullmaster-ai PR data aggregation pipeline
(src/services/github.js, src/commands/analyze.js) and proofs of the
specification claims about it.

JavaScript strings are modelled as Lean `String` (and, for the
repository-reference parser, as `List Char` so that the split algorithm
can be reasoned about by structural induction).  JavaScript promises and
thrown exceptions are modelled with `Except`; `Promise.all` fan-out is
modelled as sequential monadic binding, which fixes a deterministic error
precedence (array order) where the JS runtime has a race.  Compiled
regular expressions are modelled as boolean predicates on filenames.
-/

/-- Error taxonomy of the system (spec section 7).  The JS source throws
plain exceptions; provider errors reaching `getFileContent` are classified
by these kinds (`notFound` corresponds to HTTP status 404). -/
inductive PMError where
  | invalidReference
  | notFound
  | unauthorized
  | rateLimited
  | transientNetwork
  | contentFetchFailed (filename : String) (cause : PMError)
  | cancelled
  | unknown
  deriving Repr, DecidableEq

/-- Pull request metadata, as consumed by the source (title, body,
user.login, base/head refs and SHAs). -/
structure PullRequestMeta where
  title : String
  body : Option String
  userLogin : String
  baseRef : String
  headRef : String
  baseSha : String
  headSha : String
  deriving Repr, DecidableEq

/-- A changed file as returned by the provider file-list endpoint. -/
structure PRFile where
  filename : String
  status : String
  additions : Nat
  deletions : Nat
  patch : Option String
  deriving Repr, DecidableEq

/-- A changed file after the content-fetch merge step: the original file
record spread together with `baseContent`/`headContent`
(`{...file, baseContent, headContent}` in the source). -/
structure PRFileContent extends PRFile where
  baseContent : Option String
  headContent : Option String
  deriving Repr, DecidableEq

/-- A commit as consumed by the source (`commit.commit.message`,
`commit.commit.author.name`, `commit.commit.author.date`). -/
structure Commit where
  message : String
  authorName : String
  authorDate : String
  deriving Repr, DecidableEq

/-- A review as consumed by the source (`review.user.login`). -/
structure Review where
  userLogin : String
  state : String
  deriving Repr, DecidableEq

/-- The `metadata` object computed by `GitHubService.analyzePR`. -/
structure Metadata where
  totalCommits : Nat
  totalFiles : Nat
  additions : Nat
  deletions : Nat
  totalReviews : Nat
  deriving Repr, DecidableEq

/-- The object returned by `GitHubService.analyzePR`. -/
structure PRData where
  pullRequest : PullRequestMeta
  files : List PRFileContent
  commits : List Commit
  reviews : List Review
  metadata : Metadata
  deriving Repr, DecidableEq

/-- The `analysis` sub-configuration (`config.analysis` in the source).
`excludePaths` holds compiled regular expressions, modelled as boolean
predicates on the full filename string. -/
structure AnalysisConfig where
  maxFiles : Option Nat
  excludePaths : List (String → Bool)

/-- The loaded configuration object; `analysis` may be absent. -/
structure Config where
  analysis : Option AnalysisConfig

/-- Decidable equality of `Except` results, so that concrete runs of the
embedded operations can be checked by `decide`. -/
instance instDecidableEqExcept {ε α : Type} [DecidableEq ε] [DecidableEq α] :
    DecidableEq (Except ε α) := fun a b =>
  match a, b with
  | .error e, .error f =>
    if h : e = f then isTrue (by rw [h]) else isFalse (fun c => h (Except.error.inj c))
  | .error _, .ok _ => isFalse (fun c => Except.noConfusion c)
  | .ok _, .error _ => isFalse (fun c => Except.noConfusion c)
  | .ok x, .ok y =>
    if h : x = y then isTrue (by rw [h]) else isFalse (fun c => h (Except.ok.inj c))

/-- JS truthiness of an optional number: `undefined` and `0` are falsy. -/
def jsTruthyNat : Option Nat → Bool
  | none => false
  | some n => n != 0

/-- The remote provider client (Octokit in the source), modelled as a
record of response-producing operations for one fixed PR. -/
structure PRClient where
  getPullRequest : Except PMError PullRequestMeta
  getPullRequestFiles : Except PMError (List PRFile)
  getPullRequestCommits : Except PMError (List Commit)
  getPullRequestReviews : Except PMError (List Review)
  getContent : String → String → Except PMError String

/-- Embedding of `GitHubService.getFileContent`: fetch raw content at `(path, ref)`;
a 404 (`notFound`) from the provider is converted into a successful `none`
result, every other error is rethrown. -/
def getFileContent (client : PRClient) (path ref : String) :
    Except PMError (Option String) :=
  match client.getContent path ref with
  | .ok data => .ok (some data)
  | .error e => if e = .notFound then .ok none else .error e

/-- One step of the per-file content fetch inside `analyzePR`: fetch base
and head content and spread them onto the file record. -/
def fetchFileContents (client : PRClient) (pr : PullRequestMeta)
    (file : PRFile) : Except PMError PRFileContent := do
  let baseContent ← getFileContent client file.filename pr.baseSha
  let headContent ← getFileContent client file.filename pr.headSha
  pure { toPRFile := file, baseContent := baseContent, headContent := headContent }

/-- The `Promise.all(files.map(...))` content-fetch fan-out of
`analyzePR`, modelled as a fail-fast traversal in array order. -/
def fetchAllContents (client : PRClient) (pr : PullRequestMeta) :
    List PRFile → Except PMError (List PRFileContent)
  | [] => .ok []
  | file :: rest => do
    let fc ← fetchFileContents client pr file
    let rcs ← fetchAllContents client pr rest
    pure (fc :: rcs)

/-- Embedding of `GitHubService.analyzePR`: the four top-level fetches (joined with
`Promise.all`, modelled fail-fast in array order), then the per-file
content fetch, then the derived `metadata` object computed from the
original file, commit and review lists exactly as in the source. -/
def analyzePR (client : PRClient) : Except PMError PRData := do
  let pr ← client.getPullRequest
  let files ← client.getPullRequestFiles
  let commits ← client.getPullRequestCommits
  let reviews ← client.getPullRequestReviews
  let fileContents ← fetchAllContents client pr files
  pure {
    pullRequest := pr
    files := fileContents
    commits := commits
    reviews := reviews
    metadata := {
      totalCommits := commits.length
      totalFiles := files.length
      additions := files.foldl (fun sum file => sum + file.additions) 0
      deletions := files.foldl (fun sum file => sum + file.deletions) 0
      totalReviews := reviews.length } }

/-- Embedding of `filterFiles` from src/commands/analyze.js: truncate to
`config.analysis.maxFiles` when that value is truthy, then drop files
whose filename matches any exclusion pattern when the pattern list is
truthy (non-empty). -/
def filterFiles (files : List PRFileContent) (config : Config) :
    List PRFileContent :=
  let filteredFiles := files
  let filteredFiles :=
    match config.analysis with
    | some a => if jsTruthyNat a.maxFiles then filteredFiles.take (a.maxFiles.getD 0) else filteredFiles
    | none => filteredFiles
  match config.analysis with
  | some a =>
    if a.excludePaths.length != 0 then
      filteredFiles.filter
        (fun file => !(a.excludePaths.any (fun pattern => pattern file.filename)))
    else filteredFiles
  | none => filteredFiles

/-- Left fold that keeps the first occurrence of each element, matching
the insertion-order semantics of a JS `Set`. -/
def insertDistinct (acc : List String) (x : String) : List String :=
  if x ∈ acc then acc else acc ++ [x]

/-- Semantics of `[...new Set(l)]` in the source: distinct elements of `l`, first
occurrences kept, insertion order preserved. -/
def jsDistinct (l : List String) : List String :=
  l.foldl insertDistinct []

/-- JS `s || d` for an optional string: `undefined` and the empty string
are falsy and yield the default. -/
def jsOrString (s : Option String) (d : String) : String :=
  match s with
  | none => d
  | some s => if s = "" then d else s

/-- The `pullRequest` object assembled by `prepareAIData`. -/
structure AIPullRequest where
  title : String
  description : Option String
  author : String
  baseBranch : String
  headBranch : String
  deriving Repr, DecidableEq

/-- One entry of the `changes` list assembled by `prepareAIData`. -/
structure AIChange where
  filename : String
  status : String
  additions : Nat
  deletions : Nat
  previousContent : Option String
  newContent : Option String
  deriving Repr, DecidableEq

/-- One entry of the `commits` list assembled by `prepareAIData`. -/
structure AICommit where
  message : String
  author : String
  date : String
  deriving Repr, DecidableEq

/-- The `metadata` object assembled by `prepareAIData`: the spread of the
incoming `prData.metadata` plus `changedFiles` and `reviewers`. -/
structure AIMetadata where
  totalCommits : Nat
  totalFiles : Nat
  additions : Nat
  deletions : Nat
  totalReviews : Nat
  changedFiles : List String
  reviewers : List String
  deriving Repr, DecidableEq

/-- The object returned by `prepareAIData`. -/
structure AIData where
  pullRequest : AIPullRequest
  changes : List AIChange
  commits : List AICommit
  metadata : AIMetadata
  deriving Repr, DecidableEq

/-- Embedding of `prepareAIData` from src/commands/analyze.js.  Note that the
`metadata` field spreads `prData.metadata` unchanged (copying its five
aggregate counts as they were when `analyzePR` computed them) and then
adds `changedFiles` (recomputed from the current `prData.files`) and
`reviewers` (distinct review author logins). -/
def prepareAIData (prData : PRData) : AIData :=
  { pullRequest := {
      title := prData.pullRequest.title
      description := prData.pullRequest.body
      author := prData.pullRequest.userLogin
      baseBranch := prData.pullRequest.baseRef
      headBranch := prData.pullRequest.headRef }
    changes := prData.files.map (fun file =>
      { filename := file.filename
        status := file.status
        additions := file.additions
        deletions := file.deletions
        previousContent := file.baseContent
        newContent := file.headContent })
    commits := prData.commits.map (fun commit =>
      { message := commit.message
        author := commit.authorName
        date := commit.authorDate })
    metadata := {
      totalCommits := prData.metadata.totalCommits
      totalFiles := prData.metadata.totalFiles
      additions := prData.metadata.additions
      deletions := prData.metadata.deletions
      totalReviews := prData.metadata.totalReviews
      changedFiles := prData.files.map (fun f => f.filename)
      reviewers := jsDistinct (prData.reviews.map (fun r => r.userLogin)) } }

/-- The AI findings object (`aiAnalysis` placeholder in the source). -/
structure AIAnalysis where
  summary : String
  security : List String
  quality : List String
  bugs : List String
  recommendations : List String
  deriving Repr, DecidableEq

/-- The final `results` object of the first `analyze` definition:
`{...aiData, analysis: aiAnalysis}`. -/
structure Results extends AIData where
  analysis : AIAnalysis
  deriving Repr, DecidableEq

/-- Embedding of `generateMarkdownReport` from src/commands/analyze.js (the fixed
markdown template, with JS template interpolation rendered as string
concatenation). -/
def generateMarkdownReport (results : Results) : String :=
  "# Pull Request Analysis Report\n\n## Overview\n- Title: " ++
    results.pullRequest.title ++
  "\n- Author: " ++ results.pullRequest.author ++
  "\n- Base Branch: " ++ results.pullRequest.baseBranch ++
  "\n- Head Branch: " ++ results.pullRequest.headBranch ++
  "\n\n## Statistics\n- Files Changed: " ++ toString results.metadata.totalFiles ++
  "\n- Total Commits: " ++ toString results.metadata.totalCommits ++
  "\n- Additions: " ++ toString results.metadata.additions ++
  "\n- Deletions: " ++ toString results.metadata.deletions ++
  "\n\n## Analysis Results\n" ++ results.analysis.summary ++
  "\n\n### Security Issues\n" ++
    String.intercalate "\n" (results.analysis.security.map (fun issue => "- 🔒 " ++ issue)) ++
  "\n\n### Code Quality\n" ++
    String.intercalate "\n" (results.analysis.quality.map (fun issue => "- 💡 " ++ issue)) ++
  "\n\n### Potential Bugs\n" ++
    String.intercalate "\n" (results.analysis.bugs.map (fun issue => "- 🐛 " ++ issue)) ++
  "\n\n### Recommendations\n" ++
    String.intercalate "\n" (results.analysis.recommendations.map (fun rec => "- ✨ " ++ rec)) ++
  "\n\n## Changed Files\n" ++
    String.intercalate "\n" (results.metadata.changedFiles.map (fun file => "- " ++ file)) ++
  "\n\n## Reviewers\n" ++
    String.intercalate "\n" (results.metadata.reviewers.map (fun reviewer => "- @" ++ reviewer)) ++
  "\n"

/-- Embedding of `generatePrompt` from src/commands/analyze.js: the raw prompt built
from the unfiltered `analyzePR` result. -/
def generatePrompt (prData : PRData) : String :=
  let fileChanges := String.intercalate "\n" (prData.files.map (fun file =>
    "\nFile: " ++ file.filename ++
    "\nStatus: " ++ file.status ++
    "\nChanges: +" ++ toString file.additions ++ " -" ++ toString file.deletions ++
    "\nDiff:\n```\n" ++ jsOrString file.patch "Binary file changed" ++ "\n```\n"))
  "Please analyze this Pull Request and provide feedback on:\n" ++
  "- Code quality issues\n- Potential bugs or errors\n- Security concerns\n" ++
  "- Best practices recommendations\n- Suggested improvements\n\n" ++
  "Pull Request Details:\nTitle: " ++ prData.pullRequest.title ++
  "\nDescription: " ++ jsOrString prData.pullRequest.body "No description provided" ++
  "\nAuthor: " ++ prData.pullRequest.userLogin ++
  "\nBase Branch: " ++ prData.pullRequest.baseRef ++
  "\nHead Branch: " ++ prData.pullRequest.headRef ++
  "\n\nChanges Overview:\n- Total Files Changed: " ++ toString prData.metadata.totalFiles ++
  "\n- Total Commits: " ++ toString prData.metadata.totalCommits ++
  "\n- Total Additions: " ++ toString prData.metadata.additions ++
  "\n- Total Deletions: " ++ toString prData.metadata.deletions ++
  "\n\nCommits:\n" ++
    String.intercalate "\n" (prData.commits.map (fun commit => "- " ++ commit.message)) ++
  "\n\nFile Changes:\n" ++ fileChanges ++ "\n"

/-- The kind of artifact a run of an analyze command writes to disk
(serialization itself is external to the core, spec section 1). -/
inductive OutputKind where
  | analysisJson
  | markdownReport
  | promptText
  | rawDataJson
  deriving Repr, DecidableEq

/-- A file written by an analyze run: its kind together with the
content-bearing payload handed to the serializer. -/
inductive OutputFile where
  | analysisJson (results : Results)
  | markdownReport (report : String)
  | promptText (prompt : String)
  | rawDataJson (prData : PRData)
  deriving Repr, DecidableEq

/-- The kind of an output file. -/
def OutputFile.kind : OutputFile → OutputKind
  | .analysisJson _ => .analysisJson
  | .markdownReport _ => .markdownReport
  | .promptText _ => .promptText
  | .rawDataJson _ => .rawDataJson

/-- The placeholder `aiAnalysis` object of the first `analyze`
definition. -/
def pendingAnalysis : AIAnalysis :=
  { summary := "AI analysis pending implementation"
    security := []
    quality := []
    bugs := []
    recommendations := [] }

/-- The first `analyze` definition in src/commands/analyze.js
(lines 183 to 230): filter the fetched files, prepare AI data, attach the
placeholder analysis, and save a JSON results file and a markdown
report.  Modelled from the point where `analyzePR` has returned
`prData`. -/
def analyzeFirst (config : Config) (prData : PRData) : List OutputFile :=
  let prDataFiltered := { prData with files := filterFiles prData.files config }
  let aiData := prepareAIData prDataFiltered
  let results : Results := { toAIData := aiData, analysis := pendingAnalysis }
  [.analysisJson results, .markdownReport (generateMarkdownReport results)]

/-- The second `analyze` definition in src/commands/analyze.js
(lines 283 to 323): generate a prompt from the raw `analyzePR` result and
save the prompt text plus a raw JSON dump of the PR data; no filtering,
no markdown report.  Modelled from the point where `analyzePR` has
returned `prData`. -/
def analyzeSecond (prData : PRData) : List OutputFile :=
  [.promptText (generatePrompt prData), .rawDataJson prData]

/-- The binding `module.exports = analyze` at the end of src/commands/analyze.js:
both `analyze` declarations share one name, the later declaration wins
under JS function hoisting, so the module exports the second variant. -/
def exportedAnalyze : PRData → List OutputFile :=
  analyzeSecond

/-- JS `String.prototype.split` with a single-character separator,
modelled on character lists.  `jsSplit sep ""` is `[""]`, matching JS. -/
def jsSplit (sep : Char) : List Char → List (List Char)
  | [] => [[]]
  | c :: rest =>
    match jsSplit sep rest with
    | [] => [[]]
    | part :: parts =>
      if c = sep then [] :: part :: parts
      else (c :: part) :: parts

/-- Embedding of `GitHubService.parseRepoString`: split on the slash, destructure the
first two parts (a missing part is `undefined`, falsy like the empty
string), and fail with `invalidReference` when either is falsy. -/
def parseRepoString (repoString : List Char) :
    Except PMError (List Char × List Char) :=
  let parts := jsSplit '/' repoString
  let owner := parts.getD 0 []
  let repo := parts.getD 1 []
  if owner = [] ∨ repo = [] then .error .invalidReference
  else .ok (owner, repo)

/-- The effective `maxFiles` of a configuration
(`config.analysis?.maxFiles`). -/
def cfgMaxFiles (config : Config) : Option Nat :=
  match config.analysis with
  | some a => a.maxFiles
  | none => none

/-- The effective exclusion-pattern list of a configuration
(`config.analysis?.excludePaths`, absent meaning no patterns). -/
def cfgPatterns (config : Config) : List (String → Bool) :=
  match config.analysis with
  | some a => a.excludePaths
  | none => []

/-- Modelled from the spec: Filter Engine step 1, "truncate the file list
to the first `config.maxFiles` entries (provider order preserved) — if
unset, no truncation". -/
def specTruncate (files : List PRFileContent) (maxFiles : Option Nat) :
    List PRFileContent :=
  match maxFiles with
  | some m => files.take m
  | none => files

/-- Modelled from the spec: Filter Engine step 2, "remove any file whose
filename matches any of `config.excludePatterns` — if no patterns
configured, no removal". -/
def specExclude (files : List PRFileContent)
    (patterns : List (String → Bool)) : List PRFileContent :=
  files.filter (fun file => !(patterns.any (fun pattern => pattern file.filename)))

/-- The compiled exclusion regex of the spec example, the pattern
tested by `RegExp.test` against the full filename: it matches exactly
the filenames that end in the four characters ".log" (the regex is
dot-star, an escaped dot, the three letters log, and an end anchor). -/
def logPattern : String → Bool :=
  fun s => List.isSuffixOf ['.', 'l', 'o', 'g'] s.data

/-- The changed file "a.txt" of the concrete examples. -/
def aTxtFile : PRFile :=
  { filename := "a.txt", status := "modified", additions := 1, deletions := 1,
    patch := some "@@ -1 +1 @@" }

/-- The changed file "b.log" of the concrete examples. -/
def bLogFile : PRFile :=
  { filename := "b.log", status := "modified", additions := 2, deletions := 2,
    patch := some "@@ -2 +2 @@" }

/-- The changed file "c.txt" of the concrete examples. -/
def cTxtFile : PRFile :=
  { filename := "c.txt", status := "added", additions := 3, deletions := 0,
    patch := none }

/-- A file fixture with fetched content attached. -/
def withContent (f : PRFile) : PRFileContent :=
  { toPRFile := f, baseContent := some "content", headContent := some "content" }

/-- "a.txt" with content, as produced by the content-fetch merge. -/
def aTxtC : PRFileContent := withContent aTxtFile

/-- "b.log" with content, as produced by the content-fetch merge. -/
def bLogC : PRFileContent := withContent bLogFile

/-- "c.txt" with content, as produced by the content-fetch merge. -/
def cTxtC : PRFileContent := withContent cTxtFile

/-- Configuration of the filtering-order example: `maxFiles = 2` and a
single exclusion pattern matching log files. -/
def c6Config : Config :=
  { analysis := some { maxFiles := some 2, excludePaths := [logPattern] } }

/-- Configuration with no truncation and the log-file exclusion pattern,
used for the stale-aggregate failing input. -/
def c1Config : Config :=
  { analysis := some { maxFiles := none, excludePaths := [logPattern] } }

/-- PR metadata fixture. -/
def c1Meta : PullRequestMeta :=
  { title := "Add feature", body := some "desc", userLogin := "dev",
    baseRef := "main", headRef := "feat", baseSha := "bsha", headSha := "hsha" }

/-- Commit fixture. -/
def c1Commit : Commit :=
  { message := "commit message", authorName := "dev", authorDate := "2024-01-01" }

/-- A fully successful provider client for a PR with files "a.txt" and
"b.log" and reviews by alice, bob, alice. -/
def c1Client : PRClient :=
  { getPullRequest := .ok c1Meta
    getPullRequestFiles := .ok [aTxtFile, bLogFile]
    getPullRequestCommits := .ok [c1Commit]
    getPullRequestReviews := .ok
      [{ userLogin := "alice", state := "APPROVED" },
       { userLogin := "bob", state := "COMMENTED" },
       { userLogin := "alice", state := "APPROVED" }]
    getContent := fun _ _ => .ok "content" }

/-- The record `analyzePR c1Client` produces, written out. -/
def c1PRData : PRData :=
  { pullRequest := c1Meta
    files := [aTxtC, bLogC]
    commits := [c1Commit]
    reviews :=
      [{ userLogin := "alice", state := "APPROVED" },
       { userLogin := "bob", state := "COMMENTED" },
       { userLogin := "alice", state := "APPROVED" }]
    metadata := { totalCommits := 1, totalFiles := 2, additions := 3,
                  deletions := 3, totalReviews := 3 } }

/-- A client whose content endpoint is unauthorized at the head SHA: the
four top-level fetches succeed, but fetching "a.txt" at `hsha` throws. -/
def c2Client : PRClient :=
  { getPullRequest := .ok c1Meta
    getPullRequestFiles := .ok [aTxtFile]
    getPullRequestCommits := .ok []
    getPullRequestReviews := .ok []
    getContent := fun _ ref => if ref = "hsha" then .error .unauthorized else .ok "content" }

/-- A client distinguishing an absent file (404) from an unauthorized
one on the content endpoint. -/
def c3Client : PRClient :=
  { getPullRequest := .ok c1Meta
    getPullRequestFiles := .ok []
    getPullRequestCommits := .ok []
    getPullRequestReviews := .ok []
    getContent := fun path _ =>
      if path = "gone.txt" then .error .notFound
      else if path = "secret.txt" then .error .unauthorized
      else .ok "content" }

/-- A client whose review fetch is rate limited while the other three
top-level fetches succeed. -/
def c4Client : PRClient :=
  { getPullRequest := .ok c1Meta
    getPullRequestFiles := .ok [aTxtFile]
    getPullRequestCommits := .ok [c1Commit]
    getPullRequestReviews := .error .rateLimited
    getContent := fun _ _ => .ok "content" }

theorem fetchFileContents_ok_toPRFile {client : PRClient} {pr : PullRequestMeta}
    {file : PRFile} {fc : PRFileContent}
    (h : fetchFileContents client pr file = .ok fc) : fc.toPRFile = file := by
  unfold fetchFileContents at h
  cases hb : getFileContent client file.filename pr.baseSha with
  | error e => rw [hb] at h; simp [Bind.bind, Except.bind] at h
  | ok b =>
    cases hh : getFileContent client file.filename pr.headSha with
    | error e => rw [hb] at h; rw [hh] at h; simp [Bind.bind, Except.bind] at h
    | ok hd =>
      rw [hb] at h; rw [hh] at h
      simp [Bind.bind, Except.bind, pure, Except.pure] at h
      rw [← h]

theorem fetchAllContents_ok {client : PRClient} {pr : PullRequestMeta} :
    ∀ {files : List PRFile} {out : List PRFileContent},
      fetchAllContents client pr files = .ok out →
      out.map PRFileContent.toPRFile = files := by
  intro files
  induction files with
  | nil =>
    intro out h
    unfold fetchAllContents at h
    simp at h
    simp [← h]
  | cons f rest ih =>
    intro out h
    unfold fetchAllContents at h
    cases hf : fetchFileContents client pr f with
    | error e => rw [hf] at h; simp [Bind.bind, Except.bind] at h
    | ok fc =>
      cases hr : fetchAllContents client pr rest with
      | error e => rw [hf] at h; rw [hr] at h; simp [Bind.bind, Except.bind] at h
      | ok rcs =>
        rw [hf] at h; rw [hr] at h
        simp [Bind.bind, Except.bind, pure, Except.pure] at h
        rw [← h]
        simp [List.map]
        exact ⟨fetchFileContents_ok_toPRFile hf, ih hr⟩

theorem fetchAllContents_error {client : PRClient} {pr : PullRequestMeta}
    {bad : PRFile} {e : PMError} :
    ∀ (pre post : List PRFile),
      (∀ f ∈ pre, ∃ fc, fetchFileContents client pr f = .ok fc) →
      fetchFileContents client pr bad = .error e →
      fetchAllContents client pr (pre ++ bad :: post) = .error e := by
  intro pre
  induction pre with
  | nil =>
    intro post _ hbad
    show fetchAllContents client pr (bad :: post) = .error e
    unfold fetchAllContents
    rw [hbad]
    rfl
  | cons f rest ih =>
    intro post hpre hbad
    obtain ⟨fc, hfc⟩ := hpre f (by simp)
    show fetchAllContents client pr (f :: (rest ++ bad :: post)) = .error e
    unfold fetchAllContents
    rw [hfc, ih post (fun g hg => hpre g (by simp [hg])) hbad]
    rfl

theorem foldl_add_proj (g : PRFile → Nat) (files : List PRFile) :
    ∀ n : Nat, files.foldl (fun sum file => sum + g file) n = n + (files.map g).sum := by
  induction files with
  | nil => intro n; simp
  | cons f rest ih =>
    intro n
    simp only [List.foldl, List.map, List.sum_cons]
    rw [ih]
    omega

theorem foldl_insertDistinct_nodup (l : List String) :
    ∀ acc : List String, acc.Nodup → (l.foldl insertDistinct acc).Nodup := by
  induction l with
  | nil => intro acc h; simpa using h
  | cons x rest ih =>
    intro acc h
    simp only [List.foldl]
    apply ih
    unfold insertDistinct
    by_cases hx : x ∈ acc
    · simpa [hx] using h
    · simp [hx, List.nodup_append, h]

theorem foldl_insertDistinct_mem (l : List String) :
    ∀ (acc : List String) (x : String),
      x ∈ l.foldl insertDistinct acc ↔ x ∈ acc ∨ x ∈ l := by
  induction l with
  | nil => intro acc x; simp
  | cons y rest ih =>
    intro acc x
    simp only [List.foldl]
    rw [ih]
    unfold insertDistinct
    by_cases hy : y ∈ acc
    · simp only [if_pos hy, List.mem_cons]
      constructor
      · tauto
      · rintro (h | h | h)
        · tauto
        · subst h; tauto
        · tauto
    · simp only [if_neg hy, List.mem_append, List.mem_singleton, List.mem_cons]
      tauto

theorem jsDistinct_nodup (l : List String) : (jsDistinct l).Nodup :=
  foldl_insertDistinct_nodup l [] List.nodup_nil

theorem jsDistinct_mem (l : List String) (x : String) : x ∈ jsDistinct l ↔ x ∈ l := by
  simpa using foldl_insertDistinct_mem l [] x

theorem jsSplit_ne_nil (sep : Char) (l : List Char) : jsSplit sep l ≠ [] := by
  cases l with
  | nil => simp [jsSplit]
  | cons c rest =>
    unfold jsSplit
    cases h : jsSplit sep rest with
    | nil => simp
    | cons part parts => by_cases hc : c = sep <;> simp [hc]

theorem jsSplit_no_sep (sep : Char) :
    ∀ l : List Char, sep ∉ l → jsSplit sep l = [l] := by
  intro l
  induction l with
  | nil => intro _; rfl
  | cons c rest ih =>
    intro h
    have hc : c ≠ sep := fun e => h (by simp [e])
    have hrest : sep ∉ rest := fun hr => h (List.mem_cons_of_mem _ hr)
    unfold jsSplit
    rw [ih hrest]
    simp [hc]

theorem jsSplit_cons (sep c : Char) (rest : List Char) :
    jsSplit sep (c :: rest) =
      match jsSplit sep rest with
      | [] => [[]]
      | part :: parts => if c = sep then [] :: part :: parts else (c :: part) :: parts := rfl

theorem jsSplit_append (sep : Char) :
    ∀ (owner rest : List Char), sep ∉ owner →
      jsSplit sep (owner ++ sep :: rest) = owner :: jsSplit sep rest := by
  intro owner
  induction owner with
  | nil =>
    intro rest _
    show jsSplit sep (sep :: rest) = [] :: jsSplit sep rest
    rw [jsSplit_cons]
    cases h : jsSplit sep rest with
    | nil => exact absurd h (jsSplit_ne_nil sep rest)
    | cons part parts => simp
  | cons c ow ih =>
    intro rest h
    have hc : c ≠ sep := fun e => h (by simp [e])
    have how : sep ∉ ow := fun hw => h (List.mem_cons_of_mem _ hw)
    show jsSplit sep (c :: (ow ++ sep :: rest)) = (c :: ow) :: jsSplit sep rest
    rw [jsSplit_cons, ih rest how]
    simp [hc]

theorem analyzePR_ok_inv {client : PRClient} {prData : PRData}
    (h : analyzePR client = .ok prData) :
    ∃ pr files commits reviews fileContents,
      client.getPullRequest = .ok pr ∧
      client.getPullRequestFiles = .ok files ∧
      client.getPullRequestCommits = .ok commits ∧
      client.getPullRequestReviews = .ok reviews ∧
      fetchAllContents client pr files = .ok fileContents ∧
      prData = { pullRequest := pr, files := fileContents, commits := commits,
                 reviews := reviews,
                 metadata := { totalCommits := commits.length,
                               totalFiles := files.length,
                               additions := files.foldl (fun sum file => sum + file.additions) 0,
                               deletions := files.foldl (fun sum file => sum + file.deletions) 0,
                               totalReviews := reviews.length } } := by
  unfold analyzePR at h
  cases h1 : client.getPullRequest with
  | error e => rw [h1] at h; simp [Bind.bind, Except.bind] at h
  | ok pr =>
    rw [h1] at h
    cases h2 : client.getPullRequestFiles with
    | error e => rw [h2] at h; simp [Bind.bind, Except.bind] at h
    | ok files =>
      rw [h2] at h
      cases h3 : client.getPullRequestCommits with
      | error e => rw [h3] at h; simp [Bind.bind, Except.bind] at h
      | ok commits =>
        rw [h3] at h
        cases h4 : client.getPullRequestReviews with
        | error e => rw [h4] at h; simp [Bind.bind, Except.bind] at h
        | ok reviews =>
          rw [h4] at h
          simp only [Bind.bind, Except.bind] at h
          cases h5 : fetchAllContents client pr files with
          | error e => rw [h5] at h; simp at h
          | ok fileContents =>
            rw [h5] at h
            simp only [pure, Except.pure, Except.ok.injEq] at h
            exact ⟨pr, files, commits, reviews, fileContents, rfl, rfl, rfl, rfl, h5, h.symm⟩

/-- Claim C3: for every file path and ref, if the file does not exist at
that ref (provider 404) then `getFileContent` returns a successful result
with value none, not a propagated failure; a successful provider fetch
yields the content; any other provider error propagates as a failure. -/
theorem C3_absentFileIsSuccess (client : PRClient) (path ref : String) :
    (client.getContent path ref = .error .notFound →
      getFileContent client path ref = .ok none) ∧
    (∀ s, client.getContent path ref = .ok s →
      getFileContent client path ref = .ok (some s)) ∧
    (∀ e, client.getContent path ref = .error e → e ≠ .notFound →
      getFileContent client path ref = .error e) := by
  refine ⟨?_, ?_, ?_⟩
  · intro h; simp [getFileContent, h]
  · intro s h; simp [getFileContent, h]
  · intro e h hne; simp [getFileContent, h, hne]

/-- Witness for C3: on a concrete client, the absent file "gone.txt"
yields a successful none, and the unauthorized file "secret.txt"
propagates the unauthorized failure. -/
theorem C3_witness :
    (c3Client.getContent "gone.txt" "r" = .error .notFound ∧
      getFileContent c3Client "gone.txt" "r" = .ok none) ∧
    (c3Client.getContent "secret.txt" "r" = .error .unauthorized ∧
      PMError.unauthorized ≠ PMError.notFound ∧
      getFileContent c3Client "secret.txt" "r" = .error .unauthorized) :=
  ⟨⟨by decide, (C3_absentFileIsSuccess c3Client "gone.txt" "r").1 (by decide)⟩,
   ⟨by decide, by decide,
    (C3_absentFileIsSuccess c3Client "secret.txt" "r").2.2 .unauthorized (by decide) (by decide)⟩⟩

/-- Claim C4: if any one of the four top-level fetches (metadata, file
list, commit list, review list) fails with an error while the fetches
before it in the join succeed, the aggregation as a whole fails with that
same error and no record is produced. -/
theorem C4_topLevelFailFast (client : PRClient) (e : PMError)
    (h : client.getPullRequest = .error e ∨
      ((∃ pr, client.getPullRequest = .ok pr) ∧
        client.getPullRequestFiles = .error e) ∨
      ((∃ pr, client.getPullRequest = .ok pr) ∧
        (∃ fs, client.getPullRequestFiles = .ok fs) ∧
        client.getPullRequestCommits = .error e) ∨
      ((∃ pr, client.getPullRequest = .ok pr) ∧
        (∃ fs, client.getPullRequestFiles = .ok fs) ∧
        (∃ cs, client.getPullRequestCommits = .ok cs) ∧
        client.getPullRequestReviews = .error e)) :
    analyzePR client = .error e ∧ ∀ prData : PRData, analyzePR client ≠ .ok prData := by
  have herr : analyzePR client = .error e := by
    unfold analyzePR
    rcases h with h | ⟨⟨pr, hpr⟩, h⟩ | ⟨⟨pr, hpr⟩, ⟨fs, hfs⟩, h⟩ |
      ⟨⟨pr, hpr⟩, ⟨fs, hfs⟩, ⟨cs, hcs⟩, h⟩
    · rw [h]; rfl
    · rw [hpr, h]; rfl
    · rw [hpr, hfs, h]; rfl
    · rw [hpr, hfs, hcs, h]; rfl
  exact ⟨herr, fun prData hcontra => by rw [herr] at hcontra; exact Except.noConfusion hcontra⟩

/-- Witness for C4: a concrete client whose review fetch is rate limited
makes the whole aggregation fail with `rateLimited`. -/
theorem C4_witness :
    c4Client.getPullRequestReviews = .error .rateLimited ∧
    analyzePR c4Client = .error .rateLimited :=
  ⟨rfl, (C4_topLevelFailFast c4Client .rateLimited
    (Or.inr (Or.inr (Or.inr ⟨⟨c1Meta, rfl⟩, ⟨[aTxtFile], rfl⟩, ⟨[c1Commit], rfl⟩, rfl⟩)))).1⟩

/-- Claim C1 evaluated at the failing input: after filtering removes
"b.log", the post-filter file list has one file, yet the derived
aggregates spread by `prepareAIData` still show the pre-filter values
(totalFiles 2, additions 3, deletions 3) while `changedFiles` reflects
the filtered list — the aggregates are not recomputed from the filtered
list, contradicting the claimed invariant. -/
theorem C1_staleAggregatesAfterFilter :
    (analyzePR c1Client).map (fun prData =>
      let post := { prData with files := filterFiles prData.files c1Config }
      ((prepareAIData post).metadata.totalFiles,
       (prepareAIData post).metadata.additions,
       (prepareAIData post).metadata.deletions,
       post.files.length,
       (prepareAIData post).metadata.changedFiles))
    = .ok (2, 3, 3, 1, ["a.txt"]) := by decide

/-- Claim C10: the analyze module binds `module.exports` to the second
`analyze` definition (the prompt-dump variant): it writes exactly a
prompt text file and a raw PR-data JSON dump, never a markdown report or
an analysis-results file, and the PR data it dumps and prompts over is
the unfiltered `analyzePR` result (no `filterFiles` application), in
contrast to the first definition which writes the analysis JSON and the
markdown report. -/
theorem C10_exportedAnalyzeIsPromptDump :
    exportedAnalyze = analyzeSecond ∧
    (∀ prData, exportedAnalyze prData =
      [.promptText (generatePrompt prData), .rawDataJson prData]) ∧
    (∀ prData, (exportedAnalyze prData).map OutputFile.kind =
      [.promptText, .rawDataJson]) ∧
    (∀ prData report, OutputFile.markdownReport report ∉ exportedAnalyze prData) ∧
    (∀ prData results, OutputFile.analysisJson results ∉ exportedAnalyze prData) ∧
    (∀ prData, OutputFile.rawDataJson prData ∈ exportedAnalyze prData) ∧
    (∀ config prData, (analyzeFirst config prData).map OutputFile.kind =
      [.analysisJson, .markdownReport]) := by
  refine ⟨rfl, fun _ => rfl, fun _ => rfl, ?_, ?_, ?_, fun _ _ => rfl⟩
  · intro prData report h
    simp [exportedAnalyze, analyzeSecond, OutputFile.kind] at h
  · intro prData results h
    simp [exportedAnalyze, analyzeSecond, OutputFile.kind] at h
  · intro prData
    simp [exportedAnalyze, analyzeSecond]

/-- Claim C5: for every successful aggregation, the derived metadata
satisfies totalFiles = number of files, totalCommits = number of commits,
totalReviews = number of reviews, additions and deletions = the sums over
the files, changedFiles = the filenames in order, and reviewers = the
distinct set of reviewer handles (no duplicates, same membership). -/
theorem C5_derivedMetadata (client : PRClient) (prData : PRData)
    (h : analyzePR client = .ok prData) :
    (prepareAIData prData).metadata.totalFiles = prData.files.length ∧
    (prepareAIData prData).metadata.totalCommits = prData.commits.length ∧
    (prepareAIData prData).metadata.totalReviews = prData.reviews.length ∧
    (prepareAIData prData).metadata.additions =
      (prData.files.map (fun f => f.additions)).sum ∧
    (prepareAIData prData).metadata.deletions =
      (prData.files.map (fun f => f.deletions)).sum ∧
    (prepareAIData prData).metadata.changedFiles =
      prData.files.map (fun f => f.filename) ∧
    (prepareAIData prData).metadata.reviewers.Nodup ∧
    ∀ x, x ∈ (prepareAIData prData).metadata.reviewers ↔
      x ∈ prData.reviews.map (fun r => r.userLogin) := by
  obtain ⟨pr, files, commits, reviews, fileContents, h1, h2, h3, h4, h5, hrec⟩ :=
    analyzePR_ok_inv h
  subst hrec
  have hmap := fetchAllContents_ok h5
  refine ⟨?_, rfl, rfl, ?_, ?_, rfl, jsDistinct_nodup _, fun x => jsDistinct_mem _ x⟩
  · show files.length = fileContents.length
    rw [← hmap, List.length_map]
  · show files.foldl (fun sum file => sum + file.additions) 0 =
      (fileContents.map (fun f => f.additions)).sum
    calc files.foldl (fun sum file => sum + file.additions) 0
        = 0 + (files.map (fun f => f.additions)).sum := foldl_add_proj _ files 0
      _ = (fileContents.map (fun f => f.additions)).sum := by
          rw [Nat.zero_add, ← hmap, List.map_map]; rfl
  · show files.foldl (fun sum file => sum + file.deletions) 0 =
      (fileContents.map (fun f => f.deletions)).sum
    calc files.foldl (fun sum file => sum + file.deletions) 0
        = 0 + (files.map (fun f => f.deletions)).sum := foldl_add_proj _ files 0
      _ = (fileContents.map (fun f => f.deletions)).sum := by
          rw [Nat.zero_add, ← hmap, List.map_map]; rfl

/-- Witness for C5: the concrete client with reviews by alice, bob, alice
aggregates successfully, the derived conclusions hold there, and the
reviewer set is exactly ["alice", "bob"]. -/
theorem C5_witness :
    analyzePR c1Client = .ok c1PRData ∧
    (prepareAIData c1PRData).metadata.totalFiles = c1PRData.files.length ∧
    (prepareAIData c1PRData).metadata.additions =
      (c1PRData.files.map (fun f => f.additions)).sum ∧
    (prepareAIData c1PRData).metadata.reviewers = ["alice", "bob"] :=
  ⟨by decide, (C5_derivedMetadata c1Client c1PRData (by decide)).1,
   (C5_derivedMetadata c1Client c1PRData (by decide)).2.2.2.1, by decide⟩

/-- Claim C2 (amended): if the content fetch for some file in the changed
list fails (as `getFileContent` fails only for non-absent causes), the
entire content-fetch phase and hence the whole aggregation fails with
that underlying error propagated unchanged; no partial per-file success
is returned. -/
theorem C2_contentFailureFailsAll (client : PRClient) (pr : PullRequestMeta)
    (pre post : List PRFile) (bad : PRFile) (e : PMError)
    (hpr : client.getPullRequest = .ok pr)
    (hfiles : client.getPullRequestFiles = .ok (pre ++ bad :: post))
    (hcommits : ∃ cs, client.getPullRequestCommits = .ok cs)
    (hreviews : ∃ rs, client.getPullRequestReviews = .ok rs)
    (hpre : ∀ f ∈ pre, ∃ fc, fetchFileContents client pr f = .ok fc)
    (hbad : fetchFileContents client pr bad = .error e) :
    analyzePR client = .error e := by
  obtain ⟨cs, hcs⟩ := hcommits
  obtain ⟨rs, hrs⟩ := hreviews
  unfold analyzePR
  rw [hpr, hfiles, hcs, hrs]
  simp only [Bind.bind, Except.bind]
  rw [fetchAllContents_error pre post hpre hbad]

/-- Counterexample for C2 as stated: with a client that is unauthorized
at the head SHA, the aggregation fails with the raw underlying error
`unauthorized`, not with `contentFetchFailed` carrying the filename and
the cause as the claim asserts. -/
theorem C2_counterexample :
    analyzePR c2Client = .error .unauthorized ∧
    analyzePR c2Client ≠ .error (.contentFetchFailed "a.txt" .unauthorized) := by
  constructor
  · decide
  · decide

/-- Witness for the amended C2 theorem: on the unauthorized client, the
single file "a.txt" fails its content fetch with `unauthorized` and the
whole aggregation fails with exactly that error. -/
theorem C2_witness :
    c2Client.getPullRequest = .ok c1Meta ∧
    c2Client.getPullRequestFiles = .ok ([] ++ aTxtFile :: []) ∧
    fetchFileContents c2Client c1Meta aTxtFile = .error .unauthorized ∧
    analyzePR c2Client = .error .unauthorized :=
  ⟨rfl, rfl, by decide,
   C2_contentFailureFailsAll c2Client c1Meta [] [] aTxtFile .unauthorized rfl rfl
     ⟨[], rfl⟩ ⟨[], rfl⟩ (by simp) (by decide)⟩

/-- Claim C6: the filter applies truncation before exclusion — for every
validated configuration (positive `maxFiles` when set) it equals taking
the first `maxFiles` entries in provider order and then removing files
matching any exclusion pattern; on [a.txt, b.log, c.txt] with maxFiles 2
and the log exclusion the result is [a.txt], not [a.txt, c.txt]. -/
theorem C6_truncateThenExclude (files : List PRFileContent) (config : Config)
    (hpos : ∀ m, cfgMaxFiles config = some m → 0 < m) :
    filterFiles files config =
      specExclude (specTruncate files (cfgMaxFiles config)) (cfgPatterns config) ∧
    filterFiles [aTxtC, bLogC, cTxtC] c6Config = [aTxtC] ∧
    filterFiles [aTxtC, bLogC, cTxtC] c6Config ≠ [aTxtC, cTxtC] := by
  refine ⟨?_, by decide, by decide⟩
  cases hA : config.analysis with
  | none =>
    simp [filterFiles, specExclude, specTruncate, cfgMaxFiles, cfgPatterns, hA]
  | some a =>
    cases hm : a.maxFiles with
    | none =>
      by_cases hlen : a.excludePaths.length = 0
      · have hnil : a.excludePaths = [] := List.length_eq_zero.mp hlen
        simp [filterFiles, specExclude, specTruncate, cfgMaxFiles, cfgPatterns,
          hA, hm, hnil, jsTruthyNat]
      · simp [filterFiles, specExclude, specTruncate, cfgMaxFiles, cfgPatterns,
          hA, hm, hlen, jsTruthyNat]
    | some m =>
      have hm0 : m ≠ 0 := Nat.pos_iff_ne_zero.mp (hpos m (by simp [cfgMaxFiles, hA, hm]))
      by_cases hlen : a.excludePaths.length = 0
      · have hnil : a.excludePaths = [] := List.length_eq_zero.mp hlen
        simp [filterFiles, specExclude, specTruncate, cfgMaxFiles, cfgPatterns,
          hA, hm, hnil, jsTruthyNat, hm0]
      · simp [filterFiles, specExclude, specTruncate, cfgMaxFiles, cfgPatterns,
          hA, hm, hlen, jsTruthyNat, hm0]

/-- Witness for C6 at the concrete example configuration. -/
theorem C6_witness :
    (∀ m, cfgMaxFiles c6Config = some m → 0 < m) ∧
    (filterFiles [aTxtC, bLogC, cTxtC] c6Config =
       specExclude (specTruncate [aTxtC, bLogC, cTxtC] (cfgMaxFiles c6Config))
         (cfgPatterns c6Config) ∧
     filterFiles [aTxtC, bLogC, cTxtC] c6Config = [aTxtC] ∧
     filterFiles [aTxtC, bLogC, cTxtC] c6Config ≠ [aTxtC, cTxtC]) :=
  ⟨fun m h => by simp [cfgMaxFiles, c6Config] at h; omega,
   C6_truncateThenExclude [aTxtC, bLogC, cTxtC] c6Config
     (fun m h => by simp [cfgMaxFiles, c6Config] at h; omega)⟩

theorem parseRepoString_def (s : List Char) :
    parseRepoString s =
      if (jsSplit '/' s).getD 0 [] = [] ∨ (jsSplit '/' s).getD 1 [] = []
      then .error .invalidReference
      else .ok ((jsSplit '/' s).getD 0 [], (jsSplit '/' s).getD 1 []) := rfl

/-- Claim C7: for repository references of the form owner-slash-repo,
parsing succeeds exactly when both parts are non-empty, and the inputs
"owner/", "/repo" and "ownerrepo" all fail with `invalidReference`. -/
theorem C7_parseRepoString (owner repo : List Char)
    (howner : '/' ∉ owner) (hrepo : '/' ∉ repo) :
    ((owner ≠ [] ∧ repo ≠ []) →
      parseRepoString (owner ++ '/' :: repo) = .ok (owner, repo)) ∧
    ((owner = [] ∨ repo = []) →
      parseRepoString (owner ++ '/' :: repo) = .error .invalidReference) ∧
    parseRepoString "owner/".toList = .error .invalidReference ∧
    parseRepoString "/repo".toList = .error .invalidReference ∧
    parseRepoString "ownerrepo".toList = .error .invalidReference := by
  have hsplit : jsSplit '/' (owner ++ '/' :: repo) = [owner, repo] := by
    rw [jsSplit_append '/' owner repo howner, jsSplit_no_sep '/' repo hrepo]
  refine ⟨?_, ?_, by decide, by decide, by decide⟩
  · rintro ⟨h1, h2⟩
    rw [parseRepoString_def, hsplit]
    simp only [List.getD_cons_zero, List.getD_cons_succ]
    rw [if_neg (by simp [h1, h2])]
  · intro h
    rw [parseRepoString_def, hsplit]
    simp only [List.getD_cons_zero, List.getD_cons_succ]
    rw [if_pos h]

/-- Witness for C7: "ab/cd" parses into both parts, and "owner/" is
rejected with `invalidReference`. -/
theorem C7_witness :
    ('/' ∉ "ab".toList) ∧ ('/' ∉ "cd".toList) ∧
    parseRepoString ("ab".toList ++ '/' :: "cd".toList) =
      .ok ("ab".toList, "cd".toList) ∧
    parseRepoString "owner/".toList = .error .invalidReference :=
  ⟨by decide, by decide,
   (C7_parseRepoString "ab".toList "cd".toList (by decide) (by decide)).1
     ⟨by decide, by decide⟩,
   (C7_parseRepoString "ab".toList "cd".toList (by decide) (by decide)).2.2.1⟩

/-- Claim C8: the filter operation is idempotent — applying the same
configuration twice yields the same result as applying it once. -/
theorem C8_filterIdempotent (files : List PRFileContent) (config : Config) :
    filterFiles (filterFiles files config) config = filterFiles files config := by
  cases hA : config.analysis with
  | none => simp [filterFiles, hA]
  | some a =>
    simp only [filterFiles, hA]
    by_cases hm : jsTruthyNat a.maxFiles = true
    · by_cases hp : (a.excludePaths.length != 0) = true
      · simp only [hm, hp, if_true]
        rw [List.take_of_length_le
          (le_trans (List.length_filter_le _ _) (List.length_take_le _ _))]
        rw [List.filter_filter]
        simp
      · have hp' : (a.excludePaths.length != 0) = false := by simpa using hp
        simp [hm, hp', List.take_take]
    · have hm' : jsTruthyNat a.maxFiles = false := by simpa using hm
      by_cases hp : (a.excludePaths.length != 0) = true
      · simp [hm', hp, List.filter_filter, Bool.and_self]
      · have hp' : (a.excludePaths.length != 0) = false := by simpa using hp
        simp [hm', hp']
